import Mathlib

/-!
Shallow embedding of the housing-ai-platform ETL pipeline
(src/etl/bronze.py, src/etl/silver.py, src/etl/gold.py).

The pipeline is three DuckDB SQL transformations:
  bronze: load the raw CSV verbatim into bronze.epc_raw (all columns VARCHAR);
  silver: deduplicate bronze.epc_raw on LMK_KEY keeping the row with the
    greatest LODGEMENT_DATETIME, filter rows whose raw CURRENT_ENERGY_EFFICIENCY,
    POTENTIAL_ENERGY_EFFICIENCY or PROPERTY_TYPE is NULL, TRY_CAST the numeric
    columns, and compute data_quality_score;
  gold: filter silver rows with both efficiencies in the range 1..100, derive
    retrofit score, priority, cost and CO2 metrics and the text summary, then
    aggregate by (property_type, construction_age_band, retrofit_priority).

Modelling conventions: SQL NULL is Option.none; VARCHAR is String; DOUBLE is
modelled by the exact rationals (the SQL arithmetic involved is addition,
subtraction and division of decimally-parsed values); INTEGER is Int.
Rows are lists in insertion order.  DuckDB ORDER BY x DESC (default NULLS
LAST) ranks NULL below every non-NULL value, with the lexicographic byte
order on VARCHAR, which the functions below model on character code points.
Ties in ROW_NUMBER ordering are implementation-defined in DuckDB; the model
fixes the deterministic choice of the first row in input order.
-/

namespace EPC

/-! Rounding.  DuckDB ROUND(x) and ROUND(x, n) round half away from zero. -/

/-- Floor of a rational, mirroring Rat.floor, written so that it evaluates
by kernel reduction. -/
def ratFloor (q : ℚ) : ℤ := q.num / q.den

/-- Round half away from zero, as DuckDB ROUND on DOUBLE does. -/
def roundHalfAway (q : ℚ) : ℤ :=
  if q < 0 then - ratFloor (Rat.divInt 1 2 - q) else ratFloor (q + Rat.divInt 1 2)

/-- DuckDB ROUND(x, 1). -/
def roundTo1 (q : ℚ) : ℚ := Rat.divInt (roundHalfAway (q * 10)) 10

/-- DuckDB ROUND(x, 2). -/
def roundTo2 (q : ℚ) : ℚ := Rat.divInt (roundHalfAway (q * 100)) 100

/-- DuckDB ROUND(x, 0). -/
def roundTo0 (q : ℚ) : ℚ := (roundHalfAway q : ℚ)

/-! Text casts.  DuckDB TRY_CAST(VARCHAR AS INTEGER / DOUBLE) parses a
decimal literal with optional sign and surrounding spaces and yields NULL on
failure.  Exponent notation is not needed by any claim and is not modelled. -/

/-- Numeric value of a decimal digit character, none for other characters. -/
def digitVal (c : Char) : Option ℕ :=
  if 48 ≤ c.toNat ∧ c.toNat ≤ 57 then some (c.toNat - 48) else none

/-- Parse a run of decimal digits left to right onto an accumulator; fails on
the first non-digit.  The empty run yields the accumulator. -/
def parseDigitsAux : List Char → ℕ → Option ℕ
  | [], acc => some acc
  | c :: cs, acc =>
    match digitVal c with
    | some d => parseDigitsAux cs (acc * 10 + d)
    | none => none

/-- Parse a nonempty run of decimal digits as a natural number. -/
def parseNatNum : List Char → Option ℕ
  | [] => none
  | c :: cs => parseDigitsAux (c :: cs) 0

/-- Strip leading and trailing spaces. -/
def trimChars (cs : List Char) : List Char :=
  ((cs.dropWhile (fun c => decide (c = ' '))).reverse.dropWhile
    (fun c => decide (c = ' '))).reverse

/-- TRY_CAST(s AS INTEGER) on a non-NULL VARCHAR. -/
def tryCastInt (s : String) : Option ℤ :=
  match trimChars s.data with
  | '+' :: rest => (parseNatNum rest).map (fun n => (n : ℤ))
  | '-' :: rest => (parseNatNum rest).map (fun n => -(n : ℤ))
  | rest => (parseNatNum rest).map (fun n => (n : ℤ))

/-- Split a character list at the first dot, if any. -/
def splitDot : List Char → List Char × Option (List Char)
  | [] => ([], none)
  | c :: rest =>
    if c = '.' then ([], some rest)
    else
      let p := splitDot rest
      (c :: p.1, p.2)

/-- Parse an unsigned decimal literal (digits, optionally with a dot and a
fractional part; at least one digit overall). -/
def parseUnsignedRat (cs : List Char) : Option ℚ :=
  match splitDot cs with
  | (ip, none) => (parseNatNum ip).map (fun n => (n : ℚ))
  | (ip, some fp) =>
    if ip = [] ∧ fp = [] then none
    else
      match parseDigitsAux ip 0, parseDigitsAux fp 0 with
      | some i, some f => some ((i : ℚ) + (f : ℚ) / ((10 : ℚ) ^ fp.length))
      | _, _ => none

/-- TRY_CAST(s AS DOUBLE) on a non-NULL VARCHAR, modelled exactly. -/
def tryCastRat (s : String) : Option ℚ :=
  match trimChars s.data with
  | '+' :: rest => parseUnsignedRat rest
  | '-' :: rest => (parseUnsignedRat rest).map (fun q => -q)
  | rest => parseUnsignedRat rest

/-! Case mapping.  DuckDB UPPER and LOWER; the source data is ASCII and the
model maps the ASCII letter range. -/

/-- ASCII uppercase of one character. -/
def upChar (c : Char) : Char :=
  if 97 ≤ c.toNat ∧ c.toNat ≤ 122 then Char.ofNat (c.toNat - 32) else c

/-- ASCII lowercase of one character. -/
def downChar (c : Char) : Char :=
  if 65 ≤ c.toNat ∧ c.toNat ≤ 90 then Char.ofNat (c.toNat + 32) else c

/-- DuckDB UPPER. -/
def upperStr (s : String) : String := ⟨s.data.map upChar⟩

/-- DuckDB LOWER. -/
def lowerStr (s : String) : String := ⟨s.data.map downChar⟩

/-- DuckDB TRIM (spaces at both ends). -/
def trimStr (s : String) : String := ⟨trimChars s.data⟩

/-! VARCHAR ordering, used by ORDER BY LODGEMENT_DATETIME DESC. -/

/-- Strict lexicographic order on character lists by code point. -/
def strLtL : List Char → List Char → Bool
  | [], [] => false
  | [], _ :: _ => true
  | _ :: _, [] => false
  | a :: as, b :: bs =>
    if a.toNat < b.toNat then true
    else if b.toNat < a.toNat then false
    else strLtL as bs

/-- Strict VARCHAR comparison. -/
def strLtB (a b : String) : Bool := strLtL a.data b.data

/-- NULL ranks below every non-NULL value for ORDER BY DESC NULLS LAST. -/
def lodgLtB : Option String → Option String → Bool
  | none, none => false
  | none, some _ => true
  | some _, none => false
  | some a, some b => strLtB a b

/-! Bronze stage (src/etl/bronze.py).  One row of bronze.epc_raw holds the
source columns verbatim as VARCHAR.  Only the columns read by the silver
query and by the claims are modelled; the remaining EPC columns, the two
provenance columns and the six ordinal-label columns play no part in any
claim and are omitted.  All fields default to NULL so concrete rows can be
written by naming only the populated columns. -/

structure RawRow where
  LMK_KEY : Option String := none
  LODGEMENT_DATETIME : Option String := none
  PROPERTY_TYPE : Option String := none
  BUILT_FORM : Option String := none
  CONSTRUCTION_AGE_BAND : Option String := none
  TENURE : Option String := none
  TOTAL_FLOOR_AREA : Option String := none
  CURRENT_ENERGY_RATING : Option String := none
  POTENTIAL_ENERGY_RATING : Option String := none
  CURRENT_ENERGY_EFFICIENCY : Option String := none
  POTENTIAL_ENERGY_EFFICIENCY : Option String := none
  CO2_EMISSIONS_CURRENT : Option String := none
  CO2_EMISSIONS_POTENTIAL : Option String := none
  HEATING_COST_CURRENT : Option String := none
  HEATING_COST_POTENTIAL : Option String := none
  HOT_WATER_COST_CURRENT : Option String := none
  HOT_WATER_COST_POTENTIAL : Option String := none
  LIGHTING_COST_CURRENT : Option String := none
  LIGHTING_COST_POTENTIAL : Option String := none
  WALLS_DESCRIPTION : Option String := none
  ROOF_DESCRIPTION : Option String := none
  WINDOWS_DESCRIPTION : Option String := none
  MAINHEAT_DESCRIPTION : Option String := none
  MAIN_FUEL : Option String := none
  deriving DecidableEq

/-! Silver stage (src/etl/silver.py).  The CREATE TABLE query first ranks
rows per LMK_KEY by LODGEMENT_DATETIME descending and keeps rank 1, then
keeps only rows whose raw CURRENT_ENERGY_EFFICIENCY,
POTENTIAL_ENERGY_EFFICIENCY and PROPERTY_TYPE are non-NULL, then casts. -/

/-- One row of silver.epc_clean; only claim-relevant columns are modelled. -/
structure CleanRow where
  lmk_key : Option String
  property_type : Option String
  built_form : Option String
  construction_age_band : Option String
  tenure : Option String
  total_floor_area : Option ℚ
  current_rating : Option String
  potential_rating : Option String
  current_efficiency : Option ℤ
  potential_efficiency : Option ℤ
  co2_current : Option ℚ
  co2_potential : Option ℚ
  heating_cost_current : Option ℚ
  heating_cost_potential : Option ℚ
  hot_water_cost_current : Option ℚ
  hot_water_cost_potential : Option ℚ
  lighting_cost_current : Option ℚ
  lighting_cost_potential : Option ℚ
  walls_description : Option String
  roof_description : Option String
  windows_description : Option String
  heating_description : Option String
  main_fuel : Option String
  data_quality_score : ℤ
  deriving DecidableEq

/-- Rows of a partition that share the key of the partition. -/
def rowsForKey (raw : List RawRow) (k : Option String) : List RawRow :=
  raw.filter (fun r => decide (r.LMK_KEY = k))

/-- The later-lodged of two rows; on a tie the earlier row in input order is
kept, fixing the implementation-defined ROW_NUMBER tie-break. -/
def laterRow (a b : RawRow) : RawRow :=
  if lodgLtB a.LODGEMENT_DATETIME b.LODGEMENT_DATETIME then b else a

/-- The most recently lodged row of a nonempty partition. -/
def latestRow (r : RawRow) (rs : List RawRow) : RawRow := rs.foldl laterRow r

/-- The rank-1 row of a partition, none on the empty partition. -/
def pickLatest : List RawRow → Option RawRow
  | [] => none
  | r :: rs => some (latestRow r rs)

/-- ROW_NUMBER() OVER (PARTITION BY LMK_KEY ORDER BY LODGEMENT_DATETIME
DESC) followed by WHERE rn = 1: one surviving row per distinct key. -/
def dedupByKey (raw : List RawRow) : List RawRow :=
  ((raw.map (fun r => r.LMK_KEY)).dedup).filterMap
    (fun k => pickLatest (rowsForKey raw k))

/-- The mandatory-field predicate of the WHERE clause: the three raw columns
are tested with IS NOT NULL, before any cast. -/
def mandatoryB (r : RawRow) : Bool :=
  r.CURRENT_ENERGY_EFFICIENCY.isSome && r.POTENTIAL_ENERGY_EFFICIENCY.isSome
    && r.PROPERTY_TYPE.isSome

/-- Number of the 8 designated fields present, as cast or stored in the
clean row (the floor area is tested after TRY_CAST). -/
def presentCount (wd rd wind hd : Option String) (fa : Option ℚ)
    (ab ten mf : Option String) : ℕ :=
  wd.isSome.toNat + rd.isSome.toNat + wind.isSome.toNat + hd.isSome.toNat
    + fa.isSome.toNat + ab.isSome.toNat + ten.isSome.toNat + mf.isSome.toNat

/-- The SELECT list of the silver query applied to one surviving raw row. -/
def toClean (r : RawRow) : CleanRow :=
  let fa := r.TOTAL_FLOOR_AREA.bind tryCastRat
  { lmk_key := r.LMK_KEY
    property_type := r.PROPERTY_TYPE
    built_form := r.BUILT_FORM
    construction_age_band := r.CONSTRUCTION_AGE_BAND
    tenure := r.TENURE
    total_floor_area := fa
    current_rating := r.CURRENT_ENERGY_RATING.map (fun s => upperStr (trimStr s))
    potential_rating := r.POTENTIAL_ENERGY_RATING.map (fun s => upperStr (trimStr s))
    current_efficiency := r.CURRENT_ENERGY_EFFICIENCY.bind tryCastInt
    potential_efficiency := r.POTENTIAL_ENERGY_EFFICIENCY.bind tryCastInt
    co2_current := r.CO2_EMISSIONS_CURRENT.bind tryCastRat
    co2_potential := r.CO2_EMISSIONS_POTENTIAL.bind tryCastRat
    heating_cost_current := r.HEATING_COST_CURRENT.bind tryCastRat
    heating_cost_potential := r.HEATING_COST_POTENTIAL.bind tryCastRat
    hot_water_cost_current := r.HOT_WATER_COST_CURRENT.bind tryCastRat
    hot_water_cost_potential := r.HOT_WATER_COST_POTENTIAL.bind tryCastRat
    lighting_cost_current := r.LIGHTING_COST_CURRENT.bind tryCastRat
    lighting_cost_potential := r.LIGHTING_COST_POTENTIAL.bind tryCastRat
    walls_description := r.WALLS_DESCRIPTION
    roof_description := r.ROOF_DESCRIPTION
    windows_description := r.WINDOWS_DESCRIPTION
    heating_description := r.MAINHEAT_DESCRIPTION
    main_fuel := r.MAIN_FUEL
    data_quality_score :=
      roundHalfAway ((100 * (presentCount r.WALLS_DESCRIPTION
        r.ROOF_DESCRIPTION r.WINDOWS_DESCRIPTION r.MAINHEAT_DESCRIPTION fa
        r.CONSTRUCTION_AGE_BAND r.TENURE r.MAIN_FUEL : ℕ) : ℚ) / 8) }

/-- The silver stage: silver.epc_clean as a function of bronze.epc_raw. -/
def silverRun (raw : List RawRow) : List CleanRow :=
  ((dedupByKey raw).filter mandatoryB).map toClean

/-! Gold stage (src/etl/gold.py): gold.epc_features and gold.portfolio_agg. -/

/-- One row of gold.epc_features; only claim-relevant columns are modelled. -/
structure FeatureRow where
  property_type : Option String
  construction_age_band : Option String
  total_floor_area : Option ℚ
  current_efficiency : Option ℤ
  potential_efficiency : Option ℤ
  retrofit_score : Option ℤ
  retrofit_priority : String
  total_cost_current : ℚ
  total_cost_potential : ℚ
  annual_savings_potential : ℚ
  co2_saving_tonnes : Option ℚ
  text_summary : String
  deriving DecidableEq

/-- SQL x BETWEEN lo AND hi on a nullable integer: NULL compares to NULL,
which is not true, so a NULL value fails the filter. -/
def betweenB (x : Option ℤ) (lo hi : ℤ) : Bool :=
  match x with
  | some v => decide (lo ≤ v) && decide (v ≤ hi)
  | none => false

/-- The WHERE clause of gold.epc_features. -/
def effRangeB (c : CleanRow) : Bool :=
  betweenB c.current_efficiency 1 100 && betweenB c.potential_efficiency 1 100

/-- Subtraction of nullable values with SQL NULL propagation. -/
def subOpt (a b : Option ℚ) : Option ℚ :=
  match a, b with
  | some x, some y => some (x - y)
  | _, _ => none

/-- SQL CONCAT of a list of pieces. -/
def concatAll (l : List String) : String := l.foldr (fun a b => a ++ b) ""

/-- The SELECT list of gold.epc_features applied to one clean row.  The
CASE expression for the priority falls through to the ELSE branch when the
score is NULL, because a NULL comparison is not true. -/
def mkFeature (c : CleanRow) : FeatureRow :=
  let score : Option ℤ :=
    match c.potential_efficiency, c.current_efficiency with
    | some p, some cu => some (p - cu)
    | _, _ => none
  { property_type := c.property_type
    construction_age_band := c.construction_age_band
    total_floor_area := c.total_floor_area
    current_efficiency := c.current_efficiency
    potential_efficiency := c.potential_efficiency
    retrofit_score := score
    retrofit_priority :=
      match score with
      | some s => if 20 ≤ s then "High" else if 10 ≤ s then "Medium" else "Low"
      | none => "Low"
    total_cost_current := c.heating_cost_current.getD 0
      + c.hot_water_cost_current.getD 0 + c.lighting_cost_current.getD 0
    total_cost_potential := c.heating_cost_potential.getD 0
      + c.hot_water_cost_potential.getD 0 + c.lighting_cost_potential.getD 0
    annual_savings_potential :=
      (c.heating_cost_current.getD 0 - c.heating_cost_potential.getD 0)
      + (c.hot_water_cost_current.getD 0 - c.hot_water_cost_potential.getD 0)
      + (c.lighting_cost_current.getD 0 - c.lighting_cost_potential.getD 0)
    co2_saving_tonnes := (subOpt c.co2_current c.co2_potential).map roundTo2
    text_summary := concatAll [
      "This is a ", lowerStr (c.property_type.getD "residential property"),
      " (", lowerStr (c.built_form.getD "unknown form"), ")",
      " built ", lowerStr (c.construction_age_band.getD "in an unknown period"), ".",
      " It has an energy rating of ", c.current_rating.getD "?",
      " (efficiency score ", (c.current_efficiency.map (fun n => toString n)).getD "?",
      "/100)",
      " and could reach ", c.potential_rating.getD "?",
      " (", (c.potential_efficiency.map (fun n => toString n)).getD "?",
      "/100) with improvements.",
      " Walls: ", lowerStr (c.walls_description.getD "unknown"), ".",
      " Roof: ", lowerStr (c.roof_description.getD "unknown"), ".",
      " Windows: ", lowerStr (c.windows_description.getD "unknown"), ".",
      " Heating: ", lowerStr (c.heating_description.getD "unknown"), ".",
      " Main fuel: ", lowerStr (c.main_fuel.getD "unknown"), "."] }

/-- The feature table: one row per clean row passing the range filter. -/
def goldFeatures (clean : List CleanRow) : List FeatureRow :=
  (clean.filter effRangeB).map mkFeature

/-- The GROUP BY key of gold.portfolio_agg. -/
def segKeyOf (f : FeatureRow) : Option String × Option String × String :=
  (f.property_type, f.construction_age_band, f.retrofit_priority)

/-- SQL AVG over a nullable integer column: NULLs are ignored; NULL when
every value is NULL. -/
def avgOptI (l : List (Option ℤ)) : Option ℚ :=
  let xs := l.filterMap id
  if xs.length = 0 then none else some ((xs.sum : ℚ) / (xs.length : ℚ))

/-- SQL AVG over a nullable rational column. -/
def avgOptQ (l : List (Option ℚ)) : Option ℚ :=
  let xs := l.filterMap id
  if xs.length = 0 then none else some (xs.sum / (xs.length : ℚ))

/-- SQL AVG over a non-nullable rational column. -/
def avgQ (l : List ℚ) : Option ℚ :=
  if l.length = 0 then none else some (l.sum / (l.length : ℚ))

/-- SQL SUM over a nullable rational column: NULLs are ignored; NULL when
every value is NULL. -/
def sumOptQ (l : List (Option ℚ)) : Option ℚ :=
  let xs := l.filterMap id
  if xs.length = 0 then none else some xs.sum

/-- One row of gold.portfolio_agg. -/
structure SegmentRow where
  property_type : Option String
  construction_age_band : Option String
  retrofit_priority : String
  property_count : ℕ
  avg_current_efficiency : Option ℚ
  avg_potential_efficiency : Option ℚ
  avg_retrofit_score : Option ℚ
  avg_annual_savings_gbp : Option ℚ
  total_co2_saving_tonnes : Option ℚ
  avg_floor_area_m2 : Option ℚ
  deriving DecidableEq

/-- The aggregate SELECT list applied to one group. -/
def mkSeg (k : Option String × Option String × String)
    (grp : List FeatureRow) : SegmentRow :=
  { property_type := k.1
    construction_age_band := k.2.1
    retrofit_priority := k.2.2
    property_count := grp.length
    avg_current_efficiency :=
      (avgOptI (grp.map (fun f => f.current_efficiency))).map roundTo1
    avg_potential_efficiency :=
      (avgOptI (grp.map (fun f => f.potential_efficiency))).map roundTo1
    avg_retrofit_score :=
      (avgOptI (grp.map (fun f => f.retrofit_score))).map roundTo1
    avg_annual_savings_gbp :=
      (avgQ (grp.map (fun f => f.annual_savings_potential))).map roundTo0
    total_co2_saving_tonnes :=
      (sumOptQ (grp.map (fun f => f.co2_saving_tonnes))).map roundTo1
    avg_floor_area_m2 :=
      (avgOptQ (grp.map (fun f => f.total_floor_area))).map roundTo1 }

/-- ORDER BY avg_retrofit_score DESC with NULLS LAST. -/
def segOrd (a b : SegmentRow) : Prop :=
  match a.avg_retrofit_score, b.avg_retrofit_score with
  | some x, some y => y ≤ x
  | some _, none => True
  | none, some _ => False
  | none, none => True

instance : DecidableRel segOrd := by
  intro a b
  unfold segOrd
  split <;> infer_instance

/-- The aggregate table: one row per distinct key present in the feature
table, ordered by average retrofit score descending. -/
def portfolioAgg (feats : List FeatureRow) : List SegmentRow :=
  List.insertionSort segOrd
    (((feats.map segKeyOf).dedup).map
      (fun k => mkSeg k (feats.filter (fun f => decide (segKeyOf f = k)))))

/-! Orchestration state (src/etl/bronze.py and run_pipeline.py).  Each stage
connects to the same DuckDB database; the bronze stage executes DROP TABLE
IF EXISTS bronze.epc_raw and then CREATE TABLE bronze.epc_raw AS SELECT ...
FROM read_csv_auto(path).  Each execute call commits on its own, so when the
read fails the drop has already taken effect.  The source file is modelled
as Option: none stands for a missing, unreadable or unparseable file, some
rows for a successfully parsed file. -/

structure DBState where
  bronze_raw : Option (List RawRow) := none
  silver_clean : Option (List CleanRow) := none
  gold_features : Option (List FeatureRow) := none
  gold_agg : Option (List SegmentRow) := none
  deriving DecidableEq

/-- The bronze stage as a state transition; the Bool is true on success and
false when ingestion fails with IngestionError. -/
def bronzeRun (db : DBState) (src : Option (List RawRow)) : DBState × Bool :=
  let dropped : DBState := { db with bronze_raw := none }
  match src with
  | none => (dropped, false)
  | some rows => ({ dropped with bronze_raw := some rows }, true)

/-! Concrete rows used by counterexamples and witnesses. -/

/-- A raw row whose CURRENT_ENERGY_EFFICIENCY is present but does not parse
as an integer. -/
def rawUncoercible : RawRow :=
  { LMK_KEY := some "L1", LODGEMENT_DATETIME := some "2020-01-01 00:00:00",
    PROPERTY_TYPE := some "House", CURRENT_ENERGY_EFFICIENCY := some "abc",
    POTENTIAL_ENERGY_EFFICIENCY := some "82" }

/-- A raw row missing PROPERTY_TYPE. -/
def rawNoType : RawRow :=
  { LMK_KEY := some "K", LODGEMENT_DATETIME := some "2021-06-01 00:00:00",
    CURRENT_ENERGY_EFFICIENCY := some "50",
    POTENTIAL_ENERGY_EFFICIENCY := some "60" }

/-- An earlier-lodged raw row with every mandatory field present. -/
def rawEarlier : RawRow :=
  { LMK_KEY := some "K", LODGEMENT_DATETIME := some "2020-06-01 00:00:00",
    PROPERTY_TYPE := some "House", CURRENT_ENERGY_EFFICIENCY := some "50",
    POTENTIAL_ENERGY_EFFICIENCY := some "60" }

/-- A later-lodged raw row with every mandatory field present. -/
def rawLater : RawRow :=
  { LMK_KEY := some "K", LODGEMENT_DATETIME := some "2022-06-01 00:00:00",
    PROPERTY_TYPE := some "Flat", CURRENT_ENERGY_EFFICIENCY := some "40",
    POTENTIAL_ENERGY_EFFICIENCY := some "70" }

/-- The number of the 8 designated quality fields that are non-null on a
clean row. -/
def nonNullCount8 (c : CleanRow) : ℕ :=
  ([c.walls_description.isSome, c.roof_description.isSome,
    c.windows_description.isSome, c.heating_description.isSome,
    c.total_floor_area.isSome, c.construction_age_band.isSome,
    c.tenure.isSome, c.main_fuel.isSome].countP id)

/-- A raw row with the three current costs populated and the potential
costs absent. -/
def rawCostsOnly : RawRow :=
  { LMK_KEY := some "C4", LODGEMENT_DATETIME := some "2020-01-01 00:00:00",
    PROPERTY_TYPE := some "House", CURRENT_ENERGY_EFFICIENCY := some "58",
    POTENTIAL_ENERGY_EFFICIENCY := some "82",
    HEATING_COST_CURRENT := some "800", HOT_WATER_COST_CURRENT := some "200",
    LIGHTING_COST_CURRENT := some "100" }

/-- The text summary exactly as the specification states it: one fixed
template sentence, with every substituted descriptive field lowercased and
the stated fallback replacing each null field (residential property,
unknown form, in an unknown period, question marks for ratings and
efficiencies, unknown for descriptions and main fuel). -/
def textSummarySpec (c : CleanRow) : String :=
  "This is a " ++ lowerStr (c.property_type.getD "residential property")
  ++ " (" ++ lowerStr (c.built_form.getD "unknown form")
  ++ ") built " ++ lowerStr (c.construction_age_band.getD "in an unknown period")
  ++ ". It has an energy rating of " ++ c.current_rating.getD "?"
  ++ " (efficiency score "
  ++ (c.current_efficiency.map (fun n => toString n)).getD "?"
  ++ "/100) and could reach " ++ c.potential_rating.getD "?"
  ++ " (" ++ (c.potential_efficiency.map (fun n => toString n)).getD "?"
  ++ "/100) with improvements. Walls: "
  ++ lowerStr (c.walls_description.getD "unknown")
  ++ ". Roof: " ++ lowerStr (c.roof_description.getD "unknown")
  ++ ". Windows: " ++ lowerStr (c.windows_description.getD "unknown")
  ++ ". Heating: " ++ lowerStr (c.heating_description.getD "unknown")
  ++ ". Main fuel: " ++ lowerStr (c.main_fuel.getD "unknown")
  ++ "."

/-! Facts about the portfolio aggregate. -/

/-- The feature rows sharing the grouping key of a segment row. -/
def segGroup (feats : List FeatureRow) (seg : SegmentRow) : List FeatureRow :=
  feats.filter (fun f => decide (f.property_type = seg.property_type ∧
    f.construction_age_band = seg.construction_age_band ∧
    f.retrofit_priority = seg.retrofit_priority))

/-- The mean of the retrofit scores over a group of feature rows. -/
def scoreMean (grp : List FeatureRow) : ℚ :=
  (((grp.filterMap (fun f => f.retrofit_score)).sum : ℤ) : ℚ)
    / (grp.length : ℚ)

/-- Three raw rows in one (property_type, age band, priority) group with
retrofit scores 0, 0 and 1, so the exact mean score is 1/3. -/
def rawSeg1 : RawRow :=
  { LMK_KEY := some "S1", PROPERTY_TYPE := some "Bungalow",
    CURRENT_ENERGY_EFFICIENCY := some "50",
    POTENTIAL_ENERGY_EFFICIENCY := some "50" }

/-- Second group row, score 0. -/
def rawSeg2 : RawRow :=
  { LMK_KEY := some "S2", PROPERTY_TYPE := some "Bungalow",
    CURRENT_ENERGY_EFFICIENCY := some "50",
    POTENTIAL_ENERGY_EFFICIENCY := some "50" }

/-- Third group row, score 1. -/
def rawSeg3 : RawRow :=
  { LMK_KEY := some "S3", PROPERTY_TYPE := some "Bungalow",
    CURRENT_ENERGY_EFFICIENCY := some "50",
    POTENTIAL_ENERGY_EFFICIENCY := some "51" }

/-- A three-row clean table forming a single aggregate group. -/
def segClean : List CleanRow := [toClean rawSeg1, toClean rawSeg2, toClean rawSeg3]

/-- The single segment row emitted for that group. -/
def segW : SegmentRow :=
  mkSeg (some "Bungalow", none, "Low")
    ((goldFeatures segClean).filter
      (fun f => decide (segKeyOf f = (some "Bungalow", none, "Low"))))

/-- A database state holding a previously ingested landing table. -/
def dbPre : DBState :=
  { bronze_raw := some [rawEarlier], silver_clean := some [toClean rawEarlier] }

theorem ratFloor_eq_floor (q : ℚ) : ratFloor q = ⌊q⌋ := by
  rw [Rat.floor_def]; rfl

theorem strLtL_cons_iff (x y : Char) (xs ys : List Char) :
    strLtL (x :: xs) (y :: ys) = true ↔
      x.toNat < y.toNat ∨ (x.toNat = y.toNat ∧ strLtL xs ys = true) := by
  simp only [strLtL]
  by_cases h1 : x.toNat < y.toNat
  · simp [h1]
  · by_cases h2 : y.toNat < x.toNat
    · rw [if_neg h1, if_pos h2]
      refine iff_of_false (by simp) ?_
      rintro (h | ⟨he, _⟩)
      · exact h1 h
      · omega
    · have he : x.toNat = y.toNat := by omega
      rw [if_neg h1, if_neg h2]
      constructor
      · intro h; exact Or.inr ⟨he, h⟩
      · rintro (h | ⟨_, h⟩)
        · exact absurd h h1
        · exact h

theorem strLtL_irrefl : ∀ l : List Char, strLtL l l = false
  | [] => rfl
  | a :: as => by
    simp only [strLtL, Nat.lt_irrefl, if_false]
    exact strLtL_irrefl as

theorem strLtL_trans : ∀ {a b c : List Char},
    strLtL a b = true → strLtL b c = true → strLtL a c = true
  | [], b, c, hab, hbc => by
    cases c with
    | nil => cases b <;> simp [strLtL] at hab hbc
    | cons z zs => rfl
  | x :: xs, b, c, hab, hbc => by
    cases b with
    | nil => simp [strLtL] at hab
    | cons y ys =>
      cases c with
      | nil => simp [strLtL] at hbc
      | cons z zs =>
        rw [strLtL_cons_iff] at hab hbc ⊢
        rcases hab with h1 | ⟨h1, h1'⟩
        · rcases hbc with h2 | ⟨h2, _⟩
          · exact Or.inl (Nat.lt_trans h1 h2)
          · exact Or.inl (h2 ▸ h1)
        · rcases hbc with h2 | ⟨h2, h2'⟩
          · exact Or.inl (h1 ▸ h2)
          · exact Or.inr ⟨h1.trans h2, strLtL_trans h1' h2'⟩

theorem lodgLtB_irrefl (a : Option String) : lodgLtB a a = false := by
  cases a with
  | none => rfl
  | some s => exact strLtL_irrefl s.data

theorem lodgLtB_trans {a b c : Option String} (hab : lodgLtB a b = true)
    (hbc : lodgLtB b c = true) : lodgLtB a c = true := by
  cases a <;> cases b <;> cases c <;> simp_all [lodgLtB]
  exact strLtL_trans hab hbc

/-! Facts about the ordering used for deduplication. -/

theorem strLtL_connex {a b : List Char} (h : strLtL a b = false) :
    strLtL b a = true ∨ a = b := by
  induction a generalizing b with
  | nil =>
    cases b with
    | nil => exact Or.inr rfl
    | cons y ys => simp [strLtL] at h
  | cons x xs ih =>
    cases b with
    | nil => exact Or.inl rfl
    | cons y ys =>
      have h' := h
      rw [Bool.eq_false_iff] at h'
      by_cases hyx : y.toNat < x.toNat
      · exact Or.inl ((strLtL_cons_iff y x ys xs).mpr (Or.inl hyx))
      · by_cases hxy : x.toNat < y.toNat
        · exact absurd ((strLtL_cons_iff x y xs ys).mpr (Or.inl hxy)) h'
        · have he : x.toNat = y.toNat := by omega
          have hxsys : strLtL xs ys = false := by
            rw [Bool.eq_false_iff]
            intro hlt
            exact h' ((strLtL_cons_iff x y xs ys).mpr (Or.inr ⟨he, hlt⟩))
          rcases ih hxsys with hlt | heq
          · exact Or.inl ((strLtL_cons_iff y x ys xs).mpr (Or.inr ⟨he.symm, hlt⟩))
          · refine Or.inr ?_
            have hxy' : x = y := Char.eq_of_val_eq (UInt32.ext he)
            rw [hxy', heq]

theorem lodgLtB_connex {a b : Option String} (h : lodgLtB a b = false) :
    lodgLtB b a = true ∨ a = b := by
  cases a with
  | none =>
    cases b with
    | none => exact Or.inr rfl
    | some s => simp [lodgLtB] at h
  | some s =>
    cases b with
    | none => exact Or.inl rfl
    | some t =>
      rcases strLtL_connex (a := s.data) (b := t.data) h with hlt | heq
      · exact Or.inl hlt
      · have : s = t := by cases s; cases t; simp_all
        exact Or.inr (by rw [this])

/-- From a strictly smaller element and a non-smaller one, strictness
transfers: a below b, and c not above b, gives a below c. -/
theorem lodgLtB_lt_of_lt_of_nlt {a b c : Option String}
    (hab : lodgLtB a b = true) (hcb : lodgLtB c b = false) :
    lodgLtB a c = true := by
  rcases lodgLtB_connex hcb with hbc | hcb'
  · exact lodgLtB_trans hab hbc
  · rw [hcb']; exact hab

/-! Facts about the rank-1 row selection. -/

theorem laterRow_eq_right {a b : RawRow}
    (h : lodgLtB a.LODGEMENT_DATETIME b.LODGEMENT_DATETIME = true) :
    laterRow a b = b := by
  simp [laterRow, h]

theorem laterRow_eq_left {a b : RawRow}
    (h : lodgLtB a.LODGEMENT_DATETIME b.LODGEMENT_DATETIME = false) :
    laterRow a b = a := by
  simp [laterRow, h]

theorem laterRow_cases (a b : RawRow) : laterRow a b = a ∨ laterRow a b = b := by
  unfold laterRow; split
  · exact Or.inr rfl
  · exact Or.inl rfl

theorem latestRow_mem (r : RawRow) (rs : List RawRow) :
    latestRow r rs ∈ r :: rs := by
  induction rs generalizing r with
  | nil => simp [latestRow]
  | cons x xs ih =>
    rw [show latestRow r (x :: xs) = latestRow (laterRow r x) xs from rfl]
    rcases laterRow_cases r x with hc | hc <;> rw [hc]
    · rcases List.mem_cons.mp (ih r) with h | h
      · rw [h]; exact List.mem_cons_self _ _
      · exact List.mem_cons_of_mem _ (List.mem_cons_of_mem _ h)
    · exact List.mem_cons_of_mem _ (ih x)

theorem latestRow_not_lt (r : RawRow) (rs : List RawRow) :
    ∀ x ∈ r :: rs,
      lodgLtB (latestRow r rs).LODGEMENT_DATETIME x.LODGEMENT_DATETIME = false := by
  induction rs generalizing r with
  | nil =>
    intro x hx
    rcases List.mem_cons.mp hx with h | h
    · rw [h]; exact lodgLtB_irrefl _
    · cases h
  | cons y ys ih =>
    intro x hx
    rw [show latestRow r (y :: ys) = latestRow (laterRow r y) ys from rfl]
    by_cases hl : lodgLtB r.LODGEMENT_DATETIME y.LODGEMENT_DATETIME = true
    · rw [laterRow_eq_right hl]
      rcases List.mem_cons.mp hx with hxr | hx'
      · rw [hxr, Bool.eq_false_iff]
        intro habs
        exact Bool.eq_false_iff.mp (ih y y (List.mem_cons_self _ _))
          (lodgLtB_trans habs hl)
      · exact ih y x hx'
    · have hl' : lodgLtB r.LODGEMENT_DATETIME y.LODGEMENT_DATETIME = false := by
        simpa using hl
      rw [laterRow_eq_left hl']
      rcases List.mem_cons.mp hx with hxr | hx'
      · rw [hxr]; exact ih r r (List.mem_cons_self _ _)
      · rcases List.mem_cons.mp hx' with hxy | hx''
        · rw [hxy, Bool.eq_false_iff]
          intro habs
          exact Bool.eq_false_iff.mp (ih r r (List.mem_cons_self _ _))
            (lodgLtB_lt_of_lt_of_nlt habs hl')
        · exact ih r x (List.mem_cons_of_mem _ hx'')

/-! Facts about partitioning and deduplication. -/

theorem mem_rowsForKey {raw : List RawRow} {k : Option String} {x : RawRow} :
    x ∈ rowsForKey raw k ↔ x ∈ raw ∧ x.LMK_KEY = k := by
  simp [rowsForKey, List.mem_filter]

theorem rowsForKey_ne_nil {raw : List RawRow} {k : Option String}
    (h : k ∈ raw.map (fun r => r.LMK_KEY)) : rowsForKey raw k ≠ [] := by
  rcases List.mem_map.mp h with ⟨r, hr, hk⟩
  intro hnil
  have : r ∈ rowsForKey raw k := mem_rowsForKey.mpr ⟨hr, hk⟩
  rw [hnil] at this
  cases this

/-- The row picked from a partition belongs to the partition. -/
theorem pickLatest_mem {l : List RawRow} {r : RawRow}
    (h : pickLatest l = some r) : r ∈ l := by
  cases l with
  | nil => cases h
  | cons a as =>
    have : latestRow a as = r := by simpa [pickLatest] using h
    exact this ▸ latestRow_mem a as

/-- The row picked from a partition is not lodged before any partition row. -/
theorem pickLatest_not_lt {l : List RawRow} {r : RawRow}
    (h : pickLatest l = some r) :
    ∀ x ∈ l, lodgLtB r.LODGEMENT_DATETIME x.LODGEMENT_DATETIME = false := by
  cases l with
  | nil => cases h
  | cons a as =>
    have he : latestRow a as = r := by simpa [pickLatest] using h
    exact he ▸ latestRow_not_lt a as

/-- Elements produced by dedupByKey carry the key of their partition. -/
theorem dedupByKey_mem {raw : List RawRow} {r : RawRow}
    (h : r ∈ dedupByKey raw) :
    r ∈ raw ∧ r.LMK_KEY ∈ raw.map (fun s => s.LMK_KEY) := by
  rcases List.mem_filterMap.mp h with ⟨k, _, hpick⟩
  have hmem := pickLatest_mem hpick
  have := mem_rowsForKey.mp hmem
  exact ⟨this.1, by rw [this.2]; exact List.mem_map.mpr ⟨r, this.1, this.2⟩⟩

/-- A list whose image is duplicate-free, filtered at the image of one of
its elements, is exactly that element. -/
theorem filter_eq_singleton_of_nodup_map {α κ : Type} [DecidableEq κ]
    {l : List α} {g : α → κ} (hnd : (l.map g).Nodup) {r : α} (hr : r ∈ l)
    {k : κ} (hk : g r = k) :
    l.filter (fun x => decide (g x = k)) = [r] := by
  induction l with
  | nil => cases hr
  | cons a as ih =>
    rw [List.map_cons, List.nodup_cons] at hnd
    rcases List.mem_cons.mp hr with hra | hras
    · have hgak : g a = k := by rw [hra] at hk; exact hk
      have hnil : as.filter (fun x => decide (g x = k)) = [] := by
        rw [List.filter_eq_nil_iff]
        intro x hx
        simp only [decide_eq_true_eq]
        intro hgx
        exact hnd.1 (List.mem_map.mpr ⟨x, hx, by rw [hgx, ← hgak]⟩)
      rw [List.filter_cons, if_pos (by simp [hgak]), hnil, hra]
    · have hgak : ¬ g a = k := by
        intro hga
        exact hnd.1 (List.mem_map.mpr ⟨r, hras, by rw [hk, ← hga]⟩)
      rw [List.filter_cons, if_neg (by simp [hgak])]
      exact ih hnd.2 hras

/-- A filterMap by a key-respecting choice function maps back onto the key
list. -/
theorem filterMap_map_keys {κ α : Type} (l : List κ) (f : κ → Option α)
    (g : α → κ) (h : ∀ k ∈ l, ∃ r, f k = some r ∧ g r = k) :
    (l.filterMap f).map g = l := by
  induction l with
  | nil => rfl
  | cons k ks ih =>
    rcases h k (List.mem_cons_self _ _) with ⟨r, hfk, hgr⟩
    rw [List.filterMap_cons, hfk, List.map_cons, hgr,
      ih (fun k' hk' => h k' (List.mem_cons_of_mem _ hk'))]

/-- The keys of the deduplicated table are exactly the distinct raw keys. -/
theorem dedupByKey_map_keys (raw : List RawRow) :
    (dedupByKey raw).map (fun r => r.LMK_KEY)
      = ((raw.map (fun r => r.LMK_KEY)).dedup) := by
  apply filterMap_map_keys
  intro k hk
  have hne := rowsForKey_ne_nil (List.mem_dedup.mp hk)
  cases hrw : rowsForKey raw k with
  | nil => exact absurd hrw hne
  | cons a as =>
    refine ⟨latestRow a as, rfl, ?_⟩
    have : latestRow a as ∈ rowsForKey raw k := hrw ▸ latestRow_mem a as
    exact (mem_rowsForKey.mp this).2

/-- Each key keeps at most one row after deduplication. -/
theorem dedupByKey_countP_le_one (raw : List RawRow) (k : Option String) :
    (dedupByKey raw).countP (fun r => decide (r.LMK_KEY = k)) ≤ 1 := by
  rw [List.countP_eq_length_filter]
  by_cases hex : ∃ r ∈ dedupByKey raw, r.LMK_KEY = k
  · rcases hex with ⟨r, hr, hk⟩
    rw [filter_eq_singleton_of_nodup_map
      (dedupByKey_map_keys raw ▸ List.nodup_dedup _) hr hk]
    simp
  · rw [List.filter_eq_nil_iff.mpr (fun r hr => by
      simp only [decide_eq_true_eq]
      exact fun hk => hex ⟨r, hr, hk⟩)]
    simp

/-! Facts about the silver output list. -/

theorem mem_silverRun {raw : List RawRow} {c : CleanRow} :
    c ∈ silverRun raw ↔
      ∃ r, r ∈ dedupByKey raw ∧ mandatoryB r = true ∧ c = toClean r := by
  simp only [silverRun, List.mem_map, List.mem_filter]
  constructor
  · rintro ⟨r, ⟨hr, hm⟩, he⟩
    exact ⟨r, hr, hm, he.symm⟩
  · rintro ⟨r, hr, hm, he⟩
    exact ⟨r, ⟨hr, hm⟩, he.symm⟩

theorem silverRun_countP_le_one (raw : List RawRow) (k : Option String) :
    (silverRun raw).countP (fun c => decide (c.lmk_key = k)) ≤ 1 := by
  unfold silverRun
  rw [List.countP_map]
  have hcomp :
      ((fun c : CleanRow => decide (c.lmk_key = k)) ∘ toClean)
        = (fun r : RawRow => decide (r.LMK_KEY = k)) := rfl
  rw [hcomp, List.countP_filter]
  calc ((dedupByKey raw).countP
      (fun a => decide (a.LMK_KEY = k) && mandatoryB a))
      ≤ (dedupByKey raw).countP (fun r => decide (r.LMK_KEY = k)) :=
        List.countP_mono_left (fun x _ h => by
          exact (Bool.and_eq_true _ _).mp h |>.1)
    _ ≤ 1 := dedupByKey_countP_le_one raw k

theorem silverRun_filter_key (raw : List RawRow) (k : Option String)
    {r : RawRow} (hr : r ∈ dedupByKey raw) (hk : r.LMK_KEY = k) :
    (silverRun raw).filter (fun c => decide (c.lmk_key = k))
      = if mandatoryB r then [toClean r] else [] := by
  unfold silverRun
  rw [List.filter_map]
  have hcomp :
      ((fun c : CleanRow => decide (c.lmk_key = k)) ∘ toClean)
        = (fun r : RawRow => decide (r.LMK_KEY = k)) := rfl
  rw [hcomp]
  have hcomm :
      ((dedupByKey raw).filter mandatoryB).filter
          (fun r : RawRow => decide (r.LMK_KEY = k))
        = ((dedupByKey raw).filter
          (fun r : RawRow => decide (r.LMK_KEY = k))).filter mandatoryB := by
    rw [List.filter_filter, List.filter_filter]
    exact List.filter_congr (fun x _ => Bool.and_comm _ _)
  rw [hcomm, filter_eq_singleton_of_nodup_map
    (dedupByKey_map_keys raw ▸ List.nodup_dedup _) hr hk]
  by_cases hm : mandatoryB r
  · simp [hm]
  · simp [hm]

/-- C2.  As stated the claim fails: when the most recently lodged duplicate
is dropped by the mandatory-field filter, no row with that key survives.
Amended: at most one CleanRecord row exists per business key; among the
landing rows of a duplicated key the most recently lodged one is the only
candidate, and the key survives exactly when that candidate passes the
mandatory-field filter, in which case the surviving row is its image. -/
theorem dedup_business_key (raw : List RawRow) (k : Option String)
    (hdup : 2 ≤ raw.countP (fun r => decide (r.LMK_KEY = k))) :
    (silverRun raw).countP (fun c => decide (c.lmk_key = k)) ≤ 1 ∧
    ∃ r, r ∈ raw ∧ r.LMK_KEY = k ∧
      (∀ x ∈ raw, x.LMK_KEY = k →
        lodgLtB r.LODGEMENT_DATETIME x.LODGEMENT_DATETIME = false) ∧
      ((silverRun raw).filter (fun c => decide (c.lmk_key = k)) =
        if mandatoryB r then [toClean r] else []) := by
  refine ⟨silverRun_countP_le_one raw k, ?_⟩
  have hpos : 0 < raw.countP (fun r => decide (r.LMK_KEY = k)) := by omega
  rcases List.countP_pos_iff.mp hpos with ⟨r0, hr0, hk0⟩
  have hk0' : r0.LMK_KEY = k := of_decide_eq_true hk0
  have hkmem : k ∈ raw.map (fun r => r.LMK_KEY) :=
    List.mem_map.mpr ⟨r0, hr0, hk0'⟩
  cases hrw : rowsForKey raw k with
  | nil => exact absurd hrw (rowsForKey_ne_nil hkmem)
  | cons a as =>
    refine ⟨latestRow a as, ?_, ?_, ?_, ?_⟩
    · exact (mem_rowsForKey.mp (hrw ▸ latestRow_mem a as)).1
    · exact (mem_rowsForKey.mp (hrw ▸ latestRow_mem a as)).2
    · intro x hx hkx
      have : x ∈ rowsForKey raw k := mem_rowsForKey.mpr ⟨hx, hkx⟩
      rw [hrw] at this
      exact latestRow_not_lt a as x this
    · have hrd : latestRow a as ∈ dedupByKey raw := by
        refine List.mem_filterMap.mpr ⟨k, List.mem_dedup.mpr hkmem, ?_⟩
        rw [hrw]; rfl
      exact silverRun_filter_key raw k hrd
        (mem_rowsForKey.mp (hrw ▸ latestRow_mem a as)).2

/-- C2, counterexample to the claim as stated: the key appears in two
landing rows, yet zero rows with that key survive into the clean table,
because the most recently lodged duplicate lacks PROPERTY_TYPE. -/
theorem dedup_business_key_counterexample :
    ([rawEarlier, rawNoType] : List RawRow).countP
      (fun r => decide (r.LMK_KEY = some "K")) = 2 ∧
    silverRun [rawEarlier, rawNoType] = [] := by
  constructor
  · decide
  · decide

/-- Witness: the amended statement applied at a concrete duplicated key. -/
theorem dedup_business_key_witness :
    (silverRun [rawEarlier, rawLater]).countP
      (fun c => decide (c.lmk_key = some "K")) ≤ 1 :=
  (dedup_business_key [rawEarlier, rawLater] (some "K") (by decide)).1

/-- C1.  As stated the claim fails: the mandatory-field filter tests the
raw text with IS NOT NULL before the casts, so a present but uncoercible
efficiency string survives into the clean table with a NULL efficiency.
Amended: every clean row stems from a raw row whose three mandatory source
fields were present, property_type is always non-null, and each efficiency
column holds exactly the TRY_CAST image of its present source text (hence
is non-null whenever the text parses); every row dropped by the filter had
at least one of the three source fields absent. -/
theorem mandatory_filter_clean_fields (raw : List RawRow) :
    (∀ c ∈ silverRun raw, ∃ r, r ∈ raw ∧ c = toClean r ∧
      r.CURRENT_ENERGY_EFFICIENCY.isSome = true ∧
      r.POTENTIAL_ENERGY_EFFICIENCY.isSome = true ∧
      r.PROPERTY_TYPE.isSome = true ∧
      c.property_type.isSome = true ∧
      (∀ s, r.CURRENT_ENERGY_EFFICIENCY = some s →
        c.current_efficiency = tryCastInt s) ∧
      (∀ s, r.POTENTIAL_ENERGY_EFFICIENCY = some s →
        c.potential_efficiency = tryCastInt s)) ∧
    (∀ r ∈ dedupByKey raw, mandatoryB r = false →
      r.CURRENT_ENERGY_EFFICIENCY = none ∨
      r.POTENTIAL_ENERGY_EFFICIENCY = none ∨ r.PROPERTY_TYPE = none) := by
  constructor
  · intro c hc
    rcases mem_silverRun.mp hc with ⟨r, hrd, hm, hce⟩
    have hraw := (dedupByKey_mem hrd).1
    have hm' := hm
    simp only [mandatoryB, Bool.and_eq_true] at hm'
    refine ⟨r, hraw, hce, hm'.1.1, hm'.1.2, hm'.2, ?_, ?_, ?_⟩
    · rw [hce]
      show r.PROPERTY_TYPE.isSome = true
      exact hm'.2
    · intro s hs
      rw [hce]
      show (r.CURRENT_ENERGY_EFFICIENCY.bind tryCastInt) = tryCastInt s
      rw [hs]; rfl
    · intro s hs
      rw [hce]
      show (r.POTENTIAL_ENERGY_EFFICIENCY.bind tryCastInt) = tryCastInt s
      rw [hs]; rfl
  · intro r _ hm
    simp only [mandatoryB, Bool.and_eq_true] at hm
    rcases hcur : r.CURRENT_ENERGY_EFFICIENCY with _ | v
    · exact Or.inl rfl
    rcases hpot : r.POTENTIAL_ENERGY_EFFICIENCY with _ | w
    · exact Or.inr (Or.inl rfl)
    rcases hpt : r.PROPERTY_TYPE with _ | u
    · exact Or.inr (Or.inr rfl)
    exact absurd hm (by simp [hcur, hpot, hpt])

/-- C1, counterexample to the claim as stated: a clean row whose
current_efficiency is NULL, produced from a raw row whose efficiency text
is present but unparseable. -/
theorem mandatory_filter_clean_fields_counterexample :
    (silverRun [rawUncoercible]).map (fun c => c.current_efficiency)
      = [none] := by
  decide

/-- Witness: the amended statement applied to a concrete clean table. -/
theorem mandatory_filter_clean_fields_witness :
    rawNoType.CURRENT_ENERGY_EFFICIENCY = none ∨
    rawNoType.POTENTIAL_ENERGY_EFFICIENCY = none ∨
    rawNoType.PROPERTY_TYPE = none :=
  (mandatory_filter_clean_fields [rawNoType]).2 rawNoType (by decide) (by decide)

theorem toNat_sum_eq_countP (b1 b2 b3 b4 b5 b6 b7 b8 : Bool) :
    b1.toNat + b2.toNat + b3.toNat + b4.toNat + b5.toNat + b6.toNat
      + b7.toNat + b8.toNat
      = [b1, b2, b3, b4, b5, b6, b7, b8].countP id := by
  cases b1 <;> cases b2 <;> cases b3 <;> cases b4 <;> cases b5 <;> cases b6
    <;> cases b7 <;> cases b8 <;> rfl

/-- C9.  Confirmed: data_quality_score is the rounded percentage of the 8
designated fields present on the row, and is always between 0 and 100. -/
theorem data_quality_score_formula (raw : List RawRow) (c : CleanRow)
    (hc : c ∈ silverRun raw) :
    c.data_quality_score
      = roundHalfAway ((100 * (nonNullCount8 c : ℕ) : ℚ) / 8) ∧
    0 ≤ c.data_quality_score ∧ c.data_quality_score ≤ 100 := by
  rcases mem_silverRun.mp hc with ⟨r, _, _, hce⟩
  have heq : c.data_quality_score
      = roundHalfAway ((100 * (nonNullCount8 c : ℕ) : ℚ) / 8) := by
    rw [hce]
    show roundHalfAway ((100 * (presentCount r.WALLS_DESCRIPTION
        r.ROOF_DESCRIPTION r.WINDOWS_DESCRIPTION r.MAINHEAT_DESCRIPTION
        (r.TOTAL_FLOOR_AREA.bind tryCastRat) r.CONSTRUCTION_AGE_BAND
        r.TENURE r.MAIN_FUEL : ℕ) : ℚ) / 8)
      = roundHalfAway ((100 * (nonNullCount8 (toClean r) : ℕ) : ℚ) / 8)
    rw [show presentCount r.WALLS_DESCRIPTION r.ROOF_DESCRIPTION
        r.WINDOWS_DESCRIPTION r.MAINHEAT_DESCRIPTION
        (r.TOTAL_FLOOR_AREA.bind tryCastRat) r.CONSTRUCTION_AGE_BAND
        r.TENURE r.MAIN_FUEL = nonNullCount8 (toClean r) from
      toNat_sum_eq_countP _ _ _ _ _ _ _ _]
  refine ⟨heq, ?_, ?_⟩
  · rw [heq]
    have hle : nonNullCount8 c ≤ 8 := List.countP_le_length _
    set n := nonNullCount8 c with hn
    interval_cases n <;> with_unfolding_all decide
  · rw [heq]
    have hle : nonNullCount8 c ≤ 8 := List.countP_le_length _
    set n := nonNullCount8 c with hn
    interval_cases n <;> with_unfolding_all decide

/-- Witness: the formula and bounds at a concrete clean row. -/
theorem data_quality_score_formula_witness :
    (toClean rawEarlier).data_quality_score
      = roundHalfAway ((100 * (nonNullCount8 (toClean rawEarlier) : ℕ) : ℚ) / 8) ∧
    0 ≤ (toClean rawEarlier).data_quality_score ∧
    (toClean rawEarlier).data_quality_score ≤ 100 :=
  data_quality_score_formula [rawEarlier] (toClean rawEarlier)
    (by with_unfolding_all decide)

/-! Facts about the gold feature table. -/

theorem mem_goldFeatures {clean : List CleanRow} {f : FeatureRow} :
    f ∈ goldFeatures clean ↔
      ∃ c, c ∈ clean ∧ effRangeB c = true ∧ f = mkFeature c := by
  simp only [goldFeatures, List.mem_map, List.mem_filter]
  constructor
  · rintro ⟨c, ⟨hc, he⟩, hf⟩
    exact ⟨c, hc, he, hf.symm⟩
  · rintro ⟨c, hc, he, hf⟩
    exact ⟨c, ⟨hc, he⟩, hf.symm⟩

/-- A row passing the range filter has both efficiencies present and in
range, and its feature image scores their difference. -/
theorem effRange_score {c : CleanRow} (he : effRangeB c = true) :
    ∃ p cu : ℤ, c.potential_efficiency = some p ∧
      c.current_efficiency = some cu ∧ 1 ≤ p ∧ p ≤ 100 ∧ 1 ≤ cu ∧ cu ≤ 100 ∧
      (mkFeature c).retrofit_score = some (p - cu) := by
  unfold effRangeB betweenB at he
  rcases hcu : c.current_efficiency with _ | cu
  · rw [hcu] at he; simp at he
  rcases hp : c.potential_efficiency with _ | p
  · rw [hcu, hp] at he; simp at he
  rw [hcu, hp] at he
  simp only [Bool.and_eq_true, decide_eq_true_eq] at he
  refine ⟨p, cu, rfl, rfl, he.2.1, he.2.2, he.1.1, he.1.2, ?_⟩
  simp [mkFeature, hcu, hp]

/-- C6.  Confirmed: the feature table has exactly one row per clean row
with both efficiencies in the range 1..100 (NULL efficiencies fail the
filter), and on each such row the retrofit score is the potential minus the
current efficiency. -/
theorem feature_rows_and_score (clean : List CleanRow) :
    (goldFeatures clean).length = clean.countP effRangeB ∧
    (∀ f ∈ goldFeatures clean,
      ∃ c, c ∈ clean ∧ effRangeB c = true ∧ f = mkFeature c) ∧
    (∀ c ∈ clean, effRangeB c = true → mkFeature c ∈ goldFeatures clean) ∧
    (∀ c : CleanRow, effRangeB c = true →
      ∃ p cu : ℤ, c.potential_efficiency = some p ∧
        c.current_efficiency = some cu ∧
        (mkFeature c).retrofit_score = some (p - cu)) ∧
    (∀ c : CleanRow,
      c.current_efficiency = none ∨ c.potential_efficiency = none →
      effRangeB c = false) := by
  refine ⟨?_, ?_, ?_, ?_, ?_⟩
  · rw [goldFeatures, List.length_map, List.countP_eq_length_filter]
  · exact fun f hf => mem_goldFeatures.mp hf
  · exact fun c hc he => mem_goldFeatures.mpr ⟨c, hc, he, rfl⟩
  · intro c he
    rcases effRange_score he with ⟨p, cu, hp, hcu, _, _, _, _, hs⟩
    exact ⟨p, cu, hp, hcu, hs⟩
  · intro c hne
    rcases hne with h | h <;> simp [effRangeB, betweenB, h]

/-- Witness: a concrete clean row passing the filter lands in the table. -/
theorem feature_rows_and_score_witness :
    mkFeature (toClean rawLater) ∈ goldFeatures [toClean rawLater] :=
  (feature_rows_and_score [toClean rawLater]).2.2.1 (toClean rawLater)
    (List.mem_singleton_self _) (by decide)

/-- C3.  Confirmed: the priority bucket is High exactly on scores of at
least 20, Medium exactly on scores from 10 to 19, and Low exactly on scores
of at most 9, negative scores included. -/
theorem retrofit_priority_buckets (clean : List CleanRow) (f : FeatureRow)
    (hf : f ∈ goldFeatures clean) :
    ∃ s : ℤ, f.retrofit_score = some s ∧
      (f.retrofit_priority = "High" ↔ 20 ≤ s) ∧
      (f.retrofit_priority = "Medium" ↔ 10 ≤ s ∧ s ≤ 19) ∧
      (f.retrofit_priority = "Low" ↔ s ≤ 9) := by
  rcases mem_goldFeatures.mp hf with ⟨c, _, he, hfe⟩
  rcases effRange_score he with ⟨p, cu, hp, hcu, _, _, _, _, hs⟩
  have hpr : (mkFeature c).retrofit_priority =
      if 20 ≤ p - cu then "High" else if 10 ≤ p - cu then "Medium" else "Low" := by
    simp [mkFeature, hp, hcu]
  refine ⟨p - cu, hfe ▸ hs, ?_, ?_, ?_⟩ <;> rw [hfe, hpr] <;>
    split_ifs with h1 h2
  · exact iff_of_true rfl h1
  · exact iff_of_false (by decide) h1
  · exact iff_of_false (by decide) h1
  · exact iff_of_false (by decide) (by omega)
  · exact iff_of_true rfl (by omega)
  · exact iff_of_false (by decide) (by omega)
  · exact iff_of_false (by decide) (by omega)
  · exact iff_of_false (by decide) (by omega)
  · exact iff_of_true rfl (by omega)

/-- Witness: the buckets at a concrete feature row of score 30. -/
theorem retrofit_priority_buckets_witness :
    ∃ s : ℤ, (mkFeature (toClean rawLater)).retrofit_score = some s ∧
      ((mkFeature (toClean rawLater)).retrofit_priority = "High" ↔ 20 ≤ s) ∧
      ((mkFeature (toClean rawLater)).retrofit_priority = "Medium" ↔
        10 ≤ s ∧ s ≤ 19) ∧
      ((mkFeature (toClean rawLater)).retrofit_priority = "Low" ↔ s ≤ 9) :=
  retrofit_priority_buckets [toClean rawLater] (mkFeature (toClean rawLater))
    (List.mem_map.mpr ⟨toClean rawLater,
      List.mem_filter.mpr ⟨List.mem_singleton_self _, by decide⟩, rfl⟩)

/-- C4.  Confirmed (over the exact-arithmetic model of DOUBLE): the
per-category null-safe savings sum coincides with the difference of the two
null-safe cost totals, and with all current costs present and all potential
costs NULL the savings equal the sum of the current costs while the
potential total is 0. -/
theorem savings_totals_relation (clean : List CleanRow) :
    (∀ f ∈ goldFeatures clean,
      f.annual_savings_potential = f.total_cost_current - f.total_cost_potential) ∧
    (∀ (c : CleanRow) (hc wc lc : ℚ),
      c.heating_cost_current = some hc → c.hot_water_cost_current = some wc →
      c.lighting_cost_current = some lc → c.heating_cost_potential = none →
      c.hot_water_cost_potential = none → c.lighting_cost_potential = none →
      (mkFeature c).annual_savings_potential = hc + wc + lc ∧
      (mkFeature c).total_cost_potential = 0) := by
  constructor
  · intro f hf
    rcases mem_goldFeatures.mp hf with ⟨c, _, _, hfe⟩
    rw [hfe]
    show (c.heating_cost_current.getD 0 - c.heating_cost_potential.getD 0)
        + (c.hot_water_cost_current.getD 0 - c.hot_water_cost_potential.getD 0)
        + (c.lighting_cost_current.getD 0 - c.lighting_cost_potential.getD 0)
      = (c.heating_cost_current.getD 0 + c.hot_water_cost_current.getD 0
          + c.lighting_cost_current.getD 0)
        - (c.heating_cost_potential.getD 0 + c.hot_water_cost_potential.getD 0
          + c.lighting_cost_potential.getD 0)
    ring
  · intro c hc wc lc h1 h2 h3 h4 h5 h6
    constructor
    · show (c.heating_cost_current.getD 0 - c.heating_cost_potential.getD 0)
          + (c.hot_water_cost_current.getD 0 - c.hot_water_cost_potential.getD 0)
          + (c.lighting_cost_current.getD 0 - c.lighting_cost_potential.getD 0)
        = hc + wc + lc
      rw [h1, h2, h3, h4, h5, h6]
      show (hc - 0) + (wc - 0) + (lc - 0) = hc + wc + lc
      ring
    · show c.heating_cost_potential.getD 0 + c.hot_water_cost_potential.getD 0
          + c.lighting_cost_potential.getD 0 = 0
      rw [h4, h5, h6]
      show (0 : ℚ) + 0 + 0 = 0
      ring

set_option maxRecDepth 4000 in
/-- Witness: the null-safe sums at a concrete record. -/
theorem savings_totals_relation_witness :
    (mkFeature (toClean rawCostsOnly)).annual_savings_potential
      = 800 + 200 + 100 ∧
    (mkFeature (toClean rawCostsOnly)).total_cost_potential = 0 :=
  (savings_totals_relation [toClean rawCostsOnly]).2 (toClean rawCostsOnly)
    800 200 100 (by with_unfolding_all decide) (by with_unfolding_all decide)
    (by with_unfolding_all decide) (by decide) (by decide) (by decide)

/-- C10.  Confirmed: the CO2 saving applies no COALESCE, so it is NULL
exactly when either CO2 input is NULL, and otherwise is the rounded
difference. -/
theorem co2_saving_null_propagation (clean : List CleanRow) :
    ∀ f ∈ goldFeatures clean, ∃ c, c ∈ clean ∧ f = mkFeature c ∧
      (f.co2_saving_tonnes = none ↔
        (c.co2_current = none ∨ c.co2_potential = none)) ∧
      (∀ a b : ℚ, c.co2_current = some a → c.co2_potential = some b →
        f.co2_saving_tonnes = some (roundTo2 (a - b))) := by
  intro f hf
  rcases mem_goldFeatures.mp hf with ⟨c, hcm, _, hfe⟩
  refine ⟨c, hcm, hfe, ?_, ?_⟩
  · rw [hfe]
    show (subOpt c.co2_current c.co2_potential).map roundTo2 = none ↔ _
    rcases h1 : c.co2_current with _ | a <;> rcases h2 : c.co2_potential with _ | b <;>
      simp [subOpt]
  · intro a b h1 h2
    rw [hfe]
    show (subOpt c.co2_current c.co2_potential).map roundTo2 = _
    rw [h1, h2]
    rfl

/-- Witness: NULL propagation at a concrete feature row with both CO2
columns absent. -/
theorem co2_saving_null_propagation_witness :
    ∃ c, c ∈ [toClean rawLater] ∧
      mkFeature (toClean rawLater) = mkFeature c ∧
      ((mkFeature (toClean rawLater)).co2_saving_tonnes = none ↔
        (c.co2_current = none ∨ c.co2_potential = none)) ∧
      (∀ a b : ℚ, c.co2_current = some a → c.co2_potential = some b →
        (mkFeature (toClean rawLater)).co2_saving_tonnes
          = some (roundTo2 (a - b))) :=
  co2_saving_null_propagation [toClean rawLater]
    (mkFeature (toClean rawLater))
    (List.mem_map.mpr ⟨toClean rawLater,
      List.mem_filter.mpr ⟨List.mem_singleton_self _, by decide⟩, rfl⟩)

/-- C8.  Confirmed: the CONCAT expression of the gold query assembles, for
every row, exactly the template string the specification gives, fallbacks
and lowercasing included. -/
theorem text_summary_template (c : CleanRow) :
    (mkFeature c).text_summary = textSummarySpec c := by
  show concatAll _ = textSummarySpec c
  unfold concatAll textSummarySpec
  simp only [List.foldr]
  have e1 : (") built " : String) = ")" ++ " built " := rfl
  have e2 : (". It has an energy rating of " : String)
      = "." ++ " It has an energy rating of " := rfl
  have e3 : ("/100) and could reach " : String)
      = "/100)" ++ " and could reach " := rfl
  have e4 : ("/100) with improvements. Walls: " : String)
      = "/100) with improvements." ++ " Walls: " := rfl
  have e5 : (". Roof: " : String) = "." ++ " Roof: " := rfl
  have e6 : (". Windows: " : String) = "." ++ " Windows: " := rfl
  have e7 : (". Heating: " : String) = "." ++ " Heating: " := rfl
  have e8 : (". Main fuel: " : String) = "." ++ " Main fuel: " := rfl
  simp only [String.append_assoc, String.append_empty]
  rw [e1, e2, e3, e4, e5, e6, e7, e8]
  simp only [String.append_assoc]

theorem length_filterMap_of_all_some {α β : Type} (l : List α)
    (g : α → Option β) (h : ∀ x ∈ l, (g x).isSome = true) :
    (l.filterMap g).length = l.length := by
  induction l with
  | nil => rfl
  | cons a as ih =>
    have ha := h a (List.mem_cons_self _ _)
    rcases hg : g a with _ | b
    · rw [hg] at ha; cases ha
    · rw [List.filterMap_cons, hg, List.length_cons,
        ih (fun x hx => h x (List.mem_cons_of_mem _ hx))]
      rfl

theorem mem_portfolioAgg {feats : List FeatureRow} {seg : SegmentRow} :
    seg ∈ portfolioAgg feats ↔
      ∃ k, k ∈ (feats.map segKeyOf).dedup ∧
        seg = mkSeg k (feats.filter (fun f => decide (segKeyOf f = k))) := by
  unfold portfolioAgg
  rw [(List.perm_insertionSort segOrd _).mem_iff]
  simp only [List.mem_map]
  constructor
  · rintro ⟨k, hk, he⟩
    exact ⟨k, hk, he.symm⟩
  · rintro ⟨k, hk, he⟩
    exact ⟨k, hk, he.symm⟩

/-- Every feature row carries a present retrofit score. -/
theorem goldFeatures_score_isSome {clean : List CleanRow} {f : FeatureRow}
    (hf : f ∈ goldFeatures clean) : f.retrofit_score.isSome = true := by
  rcases mem_goldFeatures.mp hf with ⟨c, _, he, hfe⟩
  rcases effRange_score he with ⟨p, cu, _, _, _, _, _, _, hs⟩
  rw [hfe, hs]
  rfl

/-- C5.  As stated the claim fails: avg_retrofit_score is rounded to one
decimal place, so it is not in general the exact mean of the group scores.
Amended: property_count is the exact count of the matching feature rows,
every segment matches at least one feature row (and key combinations
matching none yield no segment), and avg_retrofit_score is the mean of
retrofit_score over exactly the matching rows rounded to one decimal. -/
theorem portfolio_aggregate_consistency (clean : List CleanRow) :
    (∀ seg ∈ portfolioAgg (goldFeatures clean),
      seg.property_count = (segGroup (goldFeatures clean) seg).length ∧
      1 ≤ seg.property_count ∧
      ((segGroup (goldFeatures clean) seg).filterMap
          (fun f => f.retrofit_score)).length
        = (segGroup (goldFeatures clean) seg).length ∧
      seg.avg_retrofit_score = some (roundTo1
        (scoreMean (segGroup (goldFeatures clean) seg)))) ∧
    (∀ pt ab : Option String, ∀ pr : String,
      (goldFeatures clean).filter
          (fun f => decide (segKeyOf f = (pt, ab, pr))) = [] →
      ∀ seg ∈ portfolioAgg (goldFeatures clean),
        ¬ (seg.property_type = pt ∧ seg.construction_age_band = ab ∧
          seg.retrofit_priority = pr)) := by
  constructor
  · intro seg hseg
    rcases mem_portfolioAgg.mp hseg with ⟨k, hk, hse⟩
    have hgrp : segGroup (goldFeatures clean) seg
        = (goldFeatures clean).filter (fun f => decide (segKeyOf f = k)) := by
      unfold segGroup
      apply List.filter_congr
      intro f _
      rw [hse]
      show decide (f.property_type = k.1 ∧ f.construction_age_band = k.2.1 ∧
        f.retrofit_priority = k.2.2) = decide (segKeyOf f = k)
      rw [decide_eq_decide]
      simp [segKeyOf, Prod.ext_iff]
    rcases List.mem_map.mp (List.mem_dedup.mp hk) with ⟨f0, hf0, hkf⟩
    have hf0g : f0 ∈ segGroup (goldFeatures clean) seg := by
      rw [hgrp]
      exact List.mem_filter.mpr ⟨hf0, by simp [hkf]⟩
    have hcount : seg.property_count = (segGroup (goldFeatures clean) seg).length := by
      rw [hgrp, hse]
      rfl
    have hpos : 1 ≤ (segGroup (goldFeatures clean) seg).length := by
      rcases hg : segGroup (goldFeatures clean) seg with _ | ⟨a, as⟩
      · rw [hg] at hf0g; cases hf0g
      · simp
    have hsome : ∀ f ∈ segGroup (goldFeatures clean) seg,
        (f.retrofit_score).isSome = true := by
      intro f hf
      rw [hgrp] at hf
      exact goldFeatures_score_isSome (List.mem_filter.mp hf).1
    have hlen : ((segGroup (goldFeatures clean) seg).filterMap
        (fun f => f.retrofit_score)).length
        = (segGroup (goldFeatures clean) seg).length :=
      length_filterMap_of_all_some _ _ hsome
    refine ⟨hcount, by rw [hcount]; exact hpos, hlen, ?_⟩
    have havg2 : seg.avg_retrofit_score
        = (avgOptI ((segGroup (goldFeatures clean) seg).map
            (fun f => f.retrofit_score))).map roundTo1 := by
      rw [hgrp, hse]
      rfl
    rw [havg2]
    simp only [avgOptI, scoreMean, List.filterMap_map, Function.id_comp]
    rw [hlen, if_neg (by omega)]
    rfl
  · intro pt ab pr hempty seg hseg hks
    rcases mem_portfolioAgg.mp hseg with ⟨k, hk, hse⟩
    have hkeq : k = (pt, ab, pr) := by
      rcases hks with ⟨h1, h2, h3⟩
      rw [hse] at h1 h2 h3
      have e1 : k.1 = pt := h1
      have e2 : k.2.1 = ab := h2
      have e3 : k.2.2 = pr := h3
      rcases k with ⟨k1, k2, k3⟩
      simp only at e1 e2 e3
      rw [e1, e2, e3]
    rcases List.mem_map.mp (List.mem_dedup.mp hk) with ⟨f0, hf0, hkf⟩
    have : f0 ∈ (goldFeatures clean).filter
        (fun f => decide (segKeyOf f = (pt, ab, pr))) :=
      List.mem_filter.mpr ⟨hf0, by simp [hkf, hkeq]⟩
    rw [hempty] at this
    cases this

set_option maxRecDepth 10000 in
/-- C5, counterexample to the claim as stated: the emitted average is the
rounded value 3/10, while the exact mean of the scores over exactly the
matching rows is 1/3. -/
theorem portfolio_aggregate_consistency_counterexample :
    (portfolioAgg (goldFeatures segClean)).map (fun s => s.avg_retrofit_score)
      = [some (Rat.divInt 3 10)] ∧
    (portfolioAgg (goldFeatures segClean)).map
        (fun s => scoreMean (segGroup (goldFeatures segClean) s))
      = [Rat.divInt 1 3] ∧
    ¬ (Rat.divInt 3 10 = Rat.divInt 1 3) := by
  refine ⟨?_, ?_, ?_⟩ <;> with_unfolding_all decide

set_option maxRecDepth 10000 in
/-- Witness: the amended statement at the concrete one-segment table. -/
theorem portfolio_aggregate_consistency_witness :
    segW.property_count = (segGroup (goldFeatures segClean) segW).length :=
  ((portfolio_aggregate_consistency segClean).1 segW
    (by with_unfolding_all decide)).1

/-- C7.  As stated the claim fails: the bronze stage executes DROP TABLE IF
EXISTS before attempting to read the source file, and each statement
commits separately, so a failed ingestion leaves the landing table dropped
rather than unchanged.  Amended: a failed ingestion writes no table and
leaves every other table unchanged, but the pre-existing landing table has
already been dropped, so after the failure it is absent. -/
theorem failed_ingestion_state (db : DBState) (src : Option (List RawRow))
    (h : src = none) :
    (bronzeRun db src).2 = false ∧
    (bronzeRun db src).1.silver_clean = db.silver_clean ∧
    (bronzeRun db src).1.gold_features = db.gold_features ∧
    (bronzeRun db src).1.gold_agg = db.gold_agg ∧
    (bronzeRun db src).1.bronze_raw = none := by
  subst h
  exact ⟨rfl, rfl, rfl, rfl, rfl⟩

/-- C7, counterexample to the claim as stated: after a failed ingestion the
landing table differs from its pre-existing value (it has been dropped). -/
theorem failed_ingestion_state_counterexample :
    (bronzeRun dbPre none).2 = false ∧
    ¬ ((bronzeRun dbPre none).1.bronze_raw = dbPre.bronze_raw) := by
  constructor
  · rfl
  · decide

/-- Witness: the amended statement at the concrete pre-populated state. -/
theorem failed_ingestion_state_witness :
    (bronzeRun dbPre none).2 = false ∧
    (bronzeRun dbPre none).1.silver_clean = dbPre.silver_clean ∧
    (bronzeRun dbPre none).1.gold_features = dbPre.gold_features ∧
    (bronzeRun dbPre none).1.gold_agg = dbPre.gold_agg ∧
    (bronzeRun dbPre none).1.bronze_raw = none :=
  failed_ingestion_state dbPre none rfl

end EPC
